import Mathlib

/-!
# Verification of the CompareIt comparison pipeline

A shallow embedding of the CompareIt file-comparison engine (Rust) in Lean 4,
together with proofs settling the frozen specification claims.

Modelling conventions:
* Rust `String` / `&str` is Lean `String`; `Vec<T>` is `List T`.
* `usize`/`u64` are `Nat` (values in the program stay far below overflow and
  no wrapping arithmetic occurs on the embedded paths).
* `f64` similarity scores and tolerances are modelled as exact rationals `ℚ`;
  the embedded formulas mirror the floating-point expressions of the source.
* File I/O is factored out: functions that read files in the source take the
  already-read (and, where the source normalises on read, already-normalised)
  line or record contents as arguments.
* External crates (`similar`, `strsim`, Rust `std` float parsing) are
  modelled from their documented behaviour where the source calls into them.
-/

namespace CompareIt

/-! ## Decimal rendering and parsing of natural numbers (for range strings) -/

/-- Character value of a decimal digit character (models `c as usize - '0' as usize`). -/
def charVal (c : Char) : Nat := c.toNat - 48

/-- Render a natural number as its decimal digit characters
(models Rust `usize::to_string`). -/
def natToChars (n : Nat) : List Char :=
  if n = 0 then ['0'] else ((Nat.digits 10 n).map Nat.digitChar).reverse

/-- Parse a list of decimal digit characters back to a natural number. -/
def parseNatChars (cs : List Char) : Nat :=
  Nat.ofDigits 10 ((cs.map charVal).reverse)

/-! ## Character-list splitting and joining (models Rust `join` / `split`) -/

/-- Split a character list on a separator character; always returns at least
one (possibly empty) piece, like Rust `str::split`. -/
def splitOnChar (sep : Char) : List Char → List (List Char)
  | [] => [[]]
  | c :: cs =>
    let r := splitOnChar sep cs
    if c = sep then [] :: r else (c :: r.headD []) :: r.tail

/-- Join pieces with a separator character (models Rust `Vec::join`). -/
def joinChar (sep : Char) : List (List Char) → List Char
  | [] => []
  | [p] => p
  | p :: q :: ps => p ++ sep :: joinChar sep (q :: ps)

/-! ## Range encoding (src/compare_text.rs `encode_ranges`) -/

/-- The inclusive range `[a, a+1, ..., b]` (empty when `b < a`). -/
def rangeClosed (a b : Nat) : List Nat := (List.range (b + 1 - a)).map (a + ·)

/-- Render one range piece: `"s"` when the range is a single position,
`"s-e"` otherwise (models the `push` calls in `encode_ranges`). -/
def renderRange (s e : Nat) : List Char :=
  if s = e then natToChars s else natToChars s ++ '-' :: natToChars e

/-- The loop of `encode_ranges` over the remaining positions, carrying the
current range `[start, end]`; emits the list of rendered pieces. -/
def encodeRangesPieces (s e : Nat) : List Nat → List (List Char)
  | [] => [renderRange s e]
  | p :: rest =>
    if p = e + 1 then encodeRangesPieces s p rest
    else renderRange s e :: encodeRangesPieces p p rest

/-- Encode a list of positions as ranges, for example `"1-5,8,10-15"`
(faithful to `encode_ranges` in src/compare_text.rs). -/
def encode_ranges (positions : List Nat) : String :=
  match positions with
  | [] => ""
  | p :: rest => String.mk (joinChar ',' (encodeRangesPieces p p rest))

/-- Modelled from the spec: decode one comma-separated piece of the range
string: either a single number or an inclusive `a-b` range. -/
def decodePiece (piece : List Char) : List Nat :=
  match splitOnChar '-' piece with
  | [a] => [parseNatChars a]
  | [a, b] => rangeClosed (parseNatChars a) (parseNatChars b)
  | _ => []

/-- Modelled from the spec: the decoder for the range-encoded string format
`"a-b,c,d-e"`; the repository defines only the encoder, and the spec asserts
the round trip. Splits on `,` and expands each piece. -/
def decode_ranges (s : String) : List Nat :=
  if s.data = [] then [] else (splitOnChar ',' s.data).flatMap decodePiece

/-! ## Data model (src/types.rs)

Note: the provided src/types.rs predates the Excel support referenced by
src/compare_structured.rs and src/fingerprint.rs (`FileType::Excel`); the
variant is included here since the rest of the source requires it, while
`is_structured` follows the definition in src/types.rs verbatim. -/

/-- File type detected during indexing. -/
inductive FileType where
  | Text
  | Csv
  | Tsv
  | Excel
  | Binary
  | Unknown
deriving DecidableEq

/-- The `FileType::is_structured` predicate from src/types.rs. -/
def FileType.is_structured : FileType → Bool
  | .Csv | .Tsv => true
  | _ => false

/-- One indexed file with metadata and fingerprints (src/types.rs `FileEntry`).
The path is its textual form; the simhash is the 64-bit value as a `Nat`. -/
structure FileEntry where
  path : String
  size : Nat
  file_type : FileType
  extension : String
  content_hash : String
  simhash : Option Nat
  schema_signature : Option String
  line_count : Nat
  columns : Option (List String)
deriving DecidableEq

/-- Text normalization options (src/types.rs `NormalizationOptions`). -/
structure NormalizationOptions where
  ignore_eol : Bool
  ignore_trailing_ws : Bool
  ignore_all_ws : Bool
  ignore_case : Bool
  skip_empty_lines : Bool
deriving DecidableEq

/-- Comparison mode selection (src/types.rs `CompareMode`). -/
inductive CompareMode where
  | Auto
  | Text
  | Structured
deriving DecidableEq

/-- Similarity scoring algorithm (src/types.rs `SimilarityAlgorithm`). -/
inductive SimilarityAlgorithm where
  | Diff
  | CharJaro
deriving DecidableEq

/-- Pairing strategy for folder comparison (src/types.rs `PairingStrategy`). -/
inductive PairingStrategy where
  | SamePath
  | SameName
  | AllVsAll
deriving DecidableEq

/-- Configuration for the compare operation (src/types.rs `CompareConfig`).
The output-path fields (`output_jsonl`, `output_csv`, `output_dir`) are pure
I/O plumbing and are omitted. `ignore_regex` models the compiled regex as an
abstract line substitution: `none` covers both an absent pattern and a
pattern that failed to compile (which the source drops with a warning). -/
structure CompareConfig where
  mode : CompareMode
  pairing : PairingStrategy
  top_k : Nat
  max_pairs : Option Nat
  key_columns : List String
  numeric_tolerance : ℚ
  normalization : NormalizationOptions
  similarity_algorithm : SimilarityAlgorithm
  max_diff_bytes : Nat
  verbose : Bool
  exclude_patterns : List String
  ignore_columns : List String
  ignore_regex : Option (String → String)

/-- Result of comparing two files in text mode (src/types.rs). -/
structure TextComparisonResult where
  linked_id : String
  file1_path : String
  file2_path : String
  file1_line_count : Nat
  file2_line_count : Nat
  common_lines : Nat
  only_in_file1 : Nat
  only_in_file2 : Nat
  similarity_score : ℚ
  different_positions : String
  detailed_diff : String
  diff_truncated : Bool
  identical : Bool
deriving DecidableEq

/-- A single field-level mismatch sample (src/types.rs `FieldMismatch`). -/
structure FieldMismatch where
  key : String
  value1 : String
  value2 : String
deriving DecidableEq

/-- Per-column mismatch statistics (src/types.rs `ColumnMismatch`). -/
structure ColumnMismatch where
  column_name : String
  mismatch_count : Nat
  sample_mismatches : List FieldMismatch
deriving DecidableEq

/-- Result of comparing two structured files (src/types.rs). -/
structure StructuredComparisonResult where
  linked_id : String
  file1_path : String
  file2_path : String
  file1_row_count : Nat
  file2_row_count : Nat
  common_records : Nat
  only_in_file1 : Nat
  only_in_file2 : Nat
  similarity_score : ℚ
  field_mismatches : List ColumnMismatch
  total_field_mismatches : Nat
  columns_only_in_file1 : List String
  columns_only_in_file2 : List String
  common_columns : List String
  identical : Bool
deriving DecidableEq

/-- Unified comparison result (src/types.rs `ComparisonResult`). -/
inductive ComparisonResult where
  | Text (r : TextComparisonResult)
  | Structured (r : StructuredComparisonResult)
  | HashOnly (linked_id file1_path file2_path : String)
      (file1_size file2_size : Nat) (identical : Bool)
  | Error (file1_path file2_path error : String)
deriving DecidableEq

/-- Candidate pair from the matching stage (src/types.rs `CandidatePair`). -/
structure CandidatePair where
  file1 : FileEntry
  file2 : FileEntry
  estimated_similarity : ℚ
  exact_hash_match : Bool
deriving DecidableEq

/-! ## Fingerprinting (src/fingerprint.rs) -/

/-- Hamming distance between two 64-bit simhashes: the number of differing
bits, via `(hash1 ^ hash2).count_ones()` on `u64`. -/
def hamming_distance (hash1 hash2 : Nat) : Nat :=
  (List.range 64).countP fun i => (hash1 ^^^ hash2).testBit i

/-- Similarity from simhash Hamming distance: `1 - d/64`. -/
def simhash_similarity (hash1 hash2 : Nat) : ℚ :=
  1 - (hamming_distance hash1 hash2 : ℚ) / 64

/-- All contiguous windows of length `n` of a list (models Rust
`slice::windows(n)`; empty when the list is shorter than `n`). -/
def windows {α : Type} (n : Nat) : List α → List (List α)
  | [] => []
  | x :: xs =>
    if 0 < n ∧ n ≤ xs.length + 1 then (x :: xs).take n :: windows n xs else []

/-- The maximal non-whitespace runs of a character list (models Rust
`str::split_whitespace`: no empty tokens; Unicode whitespace classes are
approximated by `Char.isWhitespace`). -/
def splitWhitespaceChars (cs : List Char) : List (List Char) :=
  let step := fun c (acc : List Char × List (List Char)) =>
    if c.isWhitespace then
      if acc.1 = [] then ([], acc.2) else ([], acc.1 :: acc.2)
    else (c :: acc.1, acc.2)
  let r := cs.foldr step ([], [])
  if r.1 = [] then r.2 else r.1 :: r.2

/-- Rust `str::split_whitespace` on a string. -/
def split_whitespace (s : String) : List String :=
  (splitWhitespaceChars s.data).map String.mk

/-- The word token stream of a list of lines (`split_whitespace`
flat-mapped over the lines). -/
def wordTokens (lines : List String) : List String :=
  lines.flatMap fun line => split_whitespace line

/-- Generate n-gram shingles from lines (src/fingerprint.rs
`generate_shingles`): word-level windows joined by spaces (or one shingle of
all words when fewer than `n` but at least one), plus line-level windows
joined by newlines when at least `n` lines exist. -/
def generate_shingles (lines : List String) (n : Nat) : List String :=
  let words := wordTokens lines
  let wordShingles :=
    if n ≤ words.length then (windows n words).map (String.intercalate " ")
    else if words ≠ [] then [String.intercalate " " words]
    else []
  let lineShingles :=
    if n ≤ lines.length then (windows n lines).map (String.intercalate "\n") else []
  wordShingles ++ lineShingles

/-! ## Matching (src/match_files.rs) -/

/-- Extension compatibility groups (src/match_files.rs
`extensions_compatible`). -/
def extensions_compatible (ext1 ext2 : String) : Bool :=
  if ext1 = ext2 then true
  else
    let text_exts := ["txt", "log", "md", "rst", ""]
    let csv_exts := ["csv", "tsv", "tab"]
    let code_exts := ["rs", "py", "js", "ts", "java", "c", "cpp", "h", "hpp", "go"]
    let config_exts := ["json", "yaml", "yml", "toml", "ini", "cfg"]
    let in_same_group := fun (g : List String) => g.contains ext1 && g.contains ext2
    in_same_group text_exts || in_same_group csv_exts ||
      in_same_group code_exts || in_same_group config_exts

/-- Blocking rules (src/match_files.rs `passes_blocking_rules`). Rule 3 of
the source (schema signatures) has an empty body and rejects nothing. -/
def passes_blocking_rules (f1 f2 : FileEntry) : Bool :=
  if ¬ extensions_compatible f1.extension f2.extension then false
  else if 0 < f1.size ∧ 0 < f2.size ∧
      ((f1.size : ℚ) / (f2.size : ℚ) < 1 / 10 ∨ 10 < (f1.size : ℚ) / (f2.size : ℚ)) then
    false
  else
    match f1.file_type, f2.file_type with
    | .Binary, .Binary => true
    | .Binary, _ => false
    | _, .Binary => false
    | _, _ => true

/-- Size-ratio fallback estimate: `min(size)/max(size) * 0.3` when both
sizes are positive, else 0 (tail of `estimate_similarity`). -/
def sizeFallback (f1 f2 : FileEntry) : ℚ :=
  if 0 < f1.size ∧ 0 < f2.size then
    ((min f1.size f2.size : Nat) : ℚ) / ((max f1.size f2.size : Nat) : ℚ) * (3 / 10)
  else 0

/-- Estimate similarity between two files from their fingerprints
(src/match_files.rs `estimate_similarity`). -/
def estimate_similarity (f1 f2 : FileEntry) : ℚ :=
  if f1.content_hash ≠ "" ∧ f1.content_hash = f2.content_hash then 1
  else
    match f1.simhash, f2.simhash with
    | some h1, some h2 => simhash_similarity h1 h2
    | _, _ =>
      match f1.schema_signature, f2.schema_signature with
      | some s1, some s2 => if s1 = s2 then 1 / 2 else sizeFallback f1 f2
      | _, _ => sizeFallback f1 f2

/-- Scan `files2` in order for the first entry with the given (non-empty)
content hash whose path has not been consumed yet. Models the per-hash
bucket scan of `find_exact_hash_matches`: the Rust `HashMap` buckets keep
`files2` in iteration order, so the bucket scan is an in-order scan of the
entries with that hash. -/
def findFirstUnmatchedByHash (h : String) (matched : List String) :
    List FileEntry → Option FileEntry
  | [] => none
  | f :: fs =>
    if f.content_hash ≠ "" ∧ f.content_hash = h ∧ ¬ matched.contains f.path then some f
    else findFirstUnmatchedByHash h matched fs

/-- The loop of `find_exact_hash_matches` over `files1`, carrying the set of
consumed right-side paths. -/
def exactHashLoop (files2 : List FileEntry) :
    List FileEntry → List String → List CandidatePair
  | [], _ => []
  | f1 :: rest, matched =>
    if f1.content_hash ≠ "" then
      match findFirstUnmatchedByHash f1.content_hash matched files2 with
      | some f2 =>
        ⟨f1, f2, 1, true⟩ :: exactHashLoop files2 rest (f2.path :: matched)
      | none => exactHashLoop files2 rest matched
    else exactHashLoop files2 rest matched

/-- Exact-hash pass of all-vs-all matching (src/match_files.rs
`find_exact_hash_matches`). -/
def find_exact_hash_matches (files1 files2 : List FileEntry) : List CandidatePair :=
  exactHashLoop files2 files1 []

/-- Similarity pass of all-vs-all matching (src/match_files.rs
`find_similarity_matches`): per left file, score the right files passing the
blocking rules, sort by descending similarity, keep the top k. -/
def find_similarity_matches (files1 files2 : List FileEntry) (top_k : Nat) :
    List CandidatePair :=
  files1.flatMap fun f1 =>
    let candidates :=
      (files2.filter fun f2 => passes_blocking_rules f1 f2).map
        fun f2 => (f2, estimate_similarity f1 f2)
    let sorted := candidates.mergeSort fun a b => decide (b.2 ≤ a.2)
    (sorted.take top_k).map fun c => ⟨f1, c.1, c.2, false⟩

/-- All-vs-all matching (src/match_files.rs `all_vs_all_match`): exact-hash
pass, similarity pass over the unmatched remainder, global sort by
descending estimated similarity, then the `max_pairs` cap. -/
def all_vs_all_match (files1 files2 : List FileEntry) (top_k : Nat)
    (max_pairs : Option Nat) : List CandidatePair :=
  let exact := find_exact_hash_matches files1 files2
  let matched1 := exact.map fun p => p.file1.path
  let matched2 := exact.map fun p => p.file2.path
  let unmatched1 := files1.filter fun f => ¬ matched1.contains f.path
  let unmatched2 := files2.filter fun f => ¬ matched2.contains f.path
  let all_pairs := exact ++ find_similarity_matches unmatched1 unmatched2 top_k
  let sorted :=
    all_pairs.mergeSort fun a b => decide (b.estimated_similarity ≤ a.estimated_similarity)
  match max_pairs with
  | some m => sorted.take m
  | none => sorted

/-! ## Structured comparison (src/compare_structured.rs) -/

/-- Strip a leading sign, returning the sign as a rational factor. -/
def parseSign : List Char → ℚ × List Char
  | '+' :: cs => (1, cs)
  | '-' :: cs => (-1, cs)
  | cs => (1, cs)

/-- Strip a leading sign, returning the sign as an integer factor. -/
def parseSignInt : List Char → ℤ × List Char
  | '+' :: cs => (1, cs)
  | '-' :: cs => (-1, cs)
  | cs => (1, cs)

/-- The optional exponent suffix after the mantissa; rejects any trailing
garbage, like Rust `str::parse`. -/
def parseExpPart (sign mant : ℚ) : List Char → Option ℚ
  | [] => some (sign * mant)
  | e :: cs1 =>
    if e = 'e' ∨ e = 'E' then
      let es := parseSignInt cs1
      let expDs := es.2.takeWhile Char.isDigit
      let rest := es.2.dropWhile Char.isDigit
      if expDs = [] ∨ rest ≠ [] then none
      else some (sign * mant * (10 : ℚ) ^ (es.1 * (parseNatChars expDs : ℤ)))
    else none

/-- Modelled from the spec: Rust `str::parse::<f64>` as used by
`values_equal`. Finite decimal and scientific forms are parsed exactly as
rationals; `inf`/`nan` spellings are modelled as parse failure (in the
source their comparisons inside `values_equal` are always false, so the
function's outcome is unchanged), and the f64 rounding step is elided. -/
def parseFloat (s : String) : Option ℚ :=
  let sc := parseSign s.data
  let intDs := sc.2.takeWhile Char.isDigit
  let afterInt := sc.2.dropWhile Char.isDigit
  match afterInt with
  | '.' :: cs2 =>
    let fracDs := cs2.takeWhile Char.isDigit
    let afterFrac := cs2.dropWhile Char.isDigit
    if intDs = [] ∧ fracDs = [] then none
    else
      parseExpPart sc.1
        ((parseNatChars intDs : ℚ) + (parseNatChars fracDs : ℚ) / (10 : ℚ) ^ fracDs.length)
        afterFrac
  | _ =>
    if intDs = [] then none
    else parseExpPart sc.1 (parseNatChars intDs : ℚ) afterInt

/-- Check if two string values are equal, with numeric tolerance support
(src/compare_structured.rs `values_equal`). -/
def values_equal (val1 val2 : String) (tolerance : ℚ) : Bool :=
  if val1 = val2 then true
  else
    match parseFloat val1, parseFloat val2 with
    | some n1, some n2 =>
      let diff := |n1 - n2|
      let max_val := max |n1| |n2|
      if diff ≤ tolerance then true
      else if 0 < max_val ∧ diff / max_val ≤ tolerance then true
      else false
    | _, _ => false

/-- Key column indices: first column when `key_columns` is empty, otherwise
the first header position of each named key column (missing names are
skipped), as in `parse_csv_into_sorted_vec`. -/
def keyIndices (headers : List String) (key_columns : List String) : List Nat :=
  if key_columns = [] then [0]
  else key_columns.filterMap fun k => headers.findIdx? (· = k)

/-- Composite key: `|`-joined fields at the key indices (out-of-range
indices are skipped), as in `parse_csv_into_sorted_vec`. -/
def buildKey (key_idx : List Nat) (record : List String) : String :=
  String.intercalate "|" (key_idx.filterMap fun i => record.get? i)

/-- Column-name-to-index map built by `enumerate().collect()`: on duplicate
header names the later index wins, as for a Rust `HashMap` collect. -/
def colIndex (headers : List String) (name : String) : Option Nat :=
  ((headers.enum.filter fun p => p.2 = name).map fun p => p.1).getLast?

/-- Field lookup by column name, defaulting to the empty string
(src/compare_structured.rs `get_field_value`). -/
def get_field_value (record : List String) (headers : List String)
    (col_name : String) : String :=
  ((colIndex headers col_name).bind fun idx => record.get? idx).getD ""

/-- The field mismatches contributed by one key-matched record pair:
one entry per non-key common column whose values differ under the
tolerance, in `common_columns` order. -/
def recordMismatches (common_columns key_columns headers1 headers2 : List String)
    (tol : ℚ) (key : String) (rec1 rec2 : List String) :
    List (String × FieldMismatch) :=
  common_columns.filterMap fun col =>
    if key_columns.contains col then none
    else
      let val1 := get_field_value rec1 headers1 col
      let val2 := get_field_value rec2 headers2 col
      if values_equal val1 val2 tol then none
      else some (col, ⟨key, val1, val2⟩)

/-- Accumulated output of the merge-join walk. -/
structure JoinCounts where
  common : Nat
  only1 : Nat
  only2 : Nat
  mismatches : List (String × FieldMismatch)
deriving DecidableEq

/-- The merge-join walk over the two key-sorted record vectors
(src/compare_structured.rs, the `while` loop plus the remainder counting).
Records are `(key, fields)` pairs. -/
def mergeJoinLoop (common_columns key_columns headers1 headers2 : List String)
    (tol : ℚ) :
    List (String × List String) → List (String × List String) → JoinCounts
  | [], l2 => ⟨0, 0, l2.length, []⟩
  | p1 :: t1, [] => ⟨0, (p1 :: t1).length, 0, []⟩
  | p1 :: t1, p2 :: t2 =>
    match compare p1.1 p2.1 with
    | .eq =>
      let ms := recordMismatches common_columns key_columns headers1 headers2
        tol p1.1 p1.2 p2.2
      let rest := mergeJoinLoop common_columns key_columns headers1 headers2 tol t1 t2
      ⟨rest.common + 1, rest.only1, rest.only2, ms ++ rest.mismatches⟩
    | .lt =>
      let rest := mergeJoinLoop common_columns key_columns headers1 headers2 tol
        t1 (p2 :: t2)
      ⟨rest.common, rest.only1 + 1, rest.only2, rest.mismatches⟩
    | .gt =>
      let rest := mergeJoinLoop common_columns key_columns headers1 headers2 tol
        (p1 :: t1) t2
      ⟨rest.common, rest.only1, rest.only2 + 1, rest.mismatches⟩
termination_by l1 l2 => l1.length + l2.length
decreasing_by all_goals (simp only [List.length_cons]; omega)

/-- The `(key, record)` vector of one file, key-sorted (the
`parse_*_into_sorted_vec` record collection plus the `par_sort_by` step). -/
def sortedRecords (headers : List String) (rows : List (List String))
    (key_columns : List String) : List (String × List String) :=
  (rows.map fun r => (buildKey (keyIndices headers key_columns) r, r)).mergeSort
    fun a b => decide (a.1 ≤ b.1)

/-- One side's column set after removing the ignored columns (the
`columns1`/`columns2` `HashSet`s). -/
def activeColumns (headers ignore_columns : List String) : List String :=
  (headers.filter fun h => ¬ ignore_columns.contains h).dedup

/-- Common (non-ignored) columns of the two header lists. -/
def commonColumns (headers1 headers2 ignore_columns : List String) : List String :=
  (activeColumns headers1 ignore_columns).filter
    fun h => (activeColumns headers2 ignore_columns).contains h

/-- Per-column aggregation of the collected field mismatches: one
`ColumnMismatch` per non-key common column with at least one mismatch,
keeping the first five samples. -/
def columnMismatchSummary (common_columns key_columns : List String)
    (ms : List (String × FieldMismatch)) : List ColumnMismatch :=
  (common_columns.filter fun col => ¬ key_columns.contains col).filterMap
    fun col =>
      let msCol := (ms.filter fun m => m.1 = col).map fun m => m.2
      if msCol = [] then none
      else some (⟨col, msCol.length, msCol.take 5⟩ : ColumnMismatch)

/-- Compare two structured files via sorted merge-join
(src/compare_structured.rs `compare_structured_files`). Takes the parsed
headers and data rows of the two files (the source reads them from disk
first). The Rust `HashSet` column sets have unspecified iteration order; the
column lists are fixed here in first-occurrence order, with identical
contents. -/
def compare_structured_files (file1 file2 : FileEntry)
    (headers1 : List String) (rows1 : List (List String))
    (headers2 : List String) (rows2 : List (List String))
    (config : CompareConfig) : StructuredComparisonResult :=
  let sorted1 := sortedRecords headers1 rows1 config.key_columns
  let sorted2 := sortedRecords headers2 rows2 config.key_columns
  let columns1 := activeColumns headers1 config.ignore_columns
  let columns2 := activeColumns headers2 config.ignore_columns
  let common_columns := commonColumns headers1 headers2 config.ignore_columns
  let columns_only_in_file1 := columns1.filter fun h => ¬ columns2.contains h
  let columns_only_in_file2 := columns2.filter fun h => ¬ columns1.contains h
  let j := mergeJoinLoop common_columns config.key_columns headers1 headers2
    config.numeric_tolerance sorted1 sorted2
  let column_mismatches := columnMismatchSummary common_columns config.key_columns
    j.mismatches
  let total_field_mismatches := (column_mismatches.map fun c => c.mismatch_count).sum
  let total_unique := sorted1.length + sorted2.length - j.common
  { linked_id := file1.content_hash.take 16 ++ ":" ++ file2.content_hash.take 16
    file1_path := file1.path
    file2_path := file2.path
    file1_row_count := sorted1.length
    file2_row_count := sorted2.length
    common_records := j.common
    only_in_file1 := j.only1
    only_in_file2 := j.only2
    similarity_score := if 0 < total_unique then (j.common : ℚ) / (total_unique : ℚ) else 1
    field_mismatches := column_mismatches
    total_field_mismatches := total_field_mismatches
    columns_only_in_file1 := columns_only_in_file1
    columns_only_in_file2 := columns_only_in_file2
    common_columns := common_columns
    identical := decide (j.only1 = 0 ∧ j.only2 = 0 ∧ total_field_mismatches = 0) }

/-! ## Text comparison (src/compare_text.rs) -/

/-- Tag of one line in the diff change stream (the `similar` crate's
`ChangeTag`). -/
inductive ChangeTag where
  | Equal
  | Delete
  | Insert
deriving DecidableEq

/-- Length of the longest common subsequence of two line lists. -/
def lcsLen : List String → List String → Nat
  | [], _ => 0
  | _ :: _, [] => 0
  | x :: xs, y :: ys =>
    if x = y then lcsLen xs ys + 1
    else max (lcsLen xs (y :: ys)) (lcsLen (x :: xs) ys)
termination_by l1 l2 => l1.length + l2.length
decreasing_by all_goals (simp only [List.length_cons]; omega)

/-- Modelled from the spec: the Myers line diff of the `similar` crate
(`TextDiff::diff_slices` with `Algorithm::Myers`), as an LCS edit script
over the two line vectors. On identical inputs the change stream is all
`Equal`, as for the crate. -/
def diffChanges : List String → List String → List (ChangeTag × String)
  | [], ys => ys.map fun y => (ChangeTag.Insert, y)
  | x :: xs, [] => (x :: xs).map fun x1 => (ChangeTag.Delete, x1)
  | x :: xs, y :: ys =>
    if x = y then (ChangeTag.Equal, x) :: diffChanges xs ys
    else if lcsLen (x :: xs) ys ≤ lcsLen xs (y :: ys) then
      (ChangeTag.Delete, x) :: diffChanges xs (y :: ys)
    else (ChangeTag.Insert, y) :: diffChanges (x :: xs) ys
termination_by l1 l2 => l1.length + l2.length
decreasing_by all_goals (simp only [List.length_cons]; omega)

/-- Accumulator of the statistics loop over the change stream. -/
structure DiffStats where
  common_lines : Nat
  only_in_file1 : Nat
  only_in_file2 : Nat
  different_positions : List Nat
  detailed_diff : String
  diff_bytes : Nat
  diff_truncated : Bool
deriving DecidableEq

/-- The `for (idx, change)` statistics loop of `compare_text_files`:
counts per tag, collects change positions, and accumulates the `-`/`+`
detailed-diff buffer until `max_diff_bytes` is exceeded. -/
def collectStats (max_diff_bytes : Nat) :
    Nat → List (ChangeTag × String) → DiffStats → DiffStats
  | _, [], st => st
  | idx, c :: cs, st =>
    let st1 :=
      match c.1 with
      | ChangeTag.Equal => { st with common_lines := st.common_lines + 1 }
      | ChangeTag.Delete =>
        let stp := { st with
          only_in_file1 := st.only_in_file1 + 1
          different_positions := st.different_positions ++ [idx] }
        if stp.diff_bytes < max_diff_bytes then
          let line := "-" ++ c.2
          let withLine := stp.detailed_diff ++ line
          { stp with
            diff_bytes := stp.diff_bytes + line.utf8ByteSize
            detailed_diff := if line.endsWith "\n" then withLine else withLine ++ "\n" }
        else { stp with diff_truncated := true }
      | ChangeTag.Insert =>
        let stp := { st with
          only_in_file2 := st.only_in_file2 + 1
          different_positions := st.different_positions ++ [idx] }
        if stp.diff_bytes < max_diff_bytes then
          let line := "+" ++ c.2
          let withLine := stp.detailed_diff ++ line
          { stp with
            diff_bytes := stp.diff_bytes + line.utf8ByteSize
            detailed_diff := if line.endsWith "\n" then withLine else withLine ++ "\n" }
        else { stp with diff_truncated := true }
    collectStats max_diff_bytes (idx + 1) cs st1

/-- A change annotated with its 0-based line numbers in the two files. -/
structure AnnChange where
  tag : ChangeTag
  value : String
  oldIdx : Nat
  newIdx : Nat
deriving DecidableEq

/-- Annotate the change stream with old/new line numbers. -/
def annotateChanges : Nat → Nat → List (ChangeTag × String) → List AnnChange
  | _, _, [] => []
  | o, n, c :: cs =>
    match c.1 with
    | ChangeTag.Equal => ⟨ChangeTag.Equal, c.2, o, n⟩ :: annotateChanges (o + 1) (n + 1) cs
    | ChangeTag.Delete => ⟨ChangeTag.Delete, c.2, o, n⟩ :: annotateChanges (o + 1) n cs
    | ChangeTag.Insert => ⟨ChangeTag.Insert, c.2, o, n⟩ :: annotateChanges o (n + 1) cs

/-- Indices (into the change stream) of the non-`Equal` changes. -/
def changedIndices (anns : List AnnChange) : List Nat :=
  (anns.enum.filter fun p => p.2.tag ≠ ChangeTag.Equal).map fun p => p.1

/-- Merge consecutive changed indices into runs whose gaps are at most
twice the context radius. -/
def groupRunsAux (radius first last : Nat) : List Nat → List (Nat × Nat)
  | [] => [(first, last)]
  | j :: js =>
    if j - last ≤ 2 * radius then groupRunsAux radius first j js
    else (first, last) :: groupRunsAux radius j j js

/-- Group the changed indices into hunk ranges. -/
def groupRuns (radius : Nat) : List Nat → List (Nat × Nat)
  | [] => []
  | i :: is => groupRunsAux radius i i is

/-- The slice of annotated changes for one hunk range, extended by the
context radius on both sides. -/
def hunkSlice (anns : List AnnChange) (radius : Nat) (fl : Nat × Nat) :
    List AnnChange :=
  let lo := fl.1 - radius
  let hi := min (fl.2 + radius) (anns.length - 1)
  (anns.drop lo).take (hi + 1 - lo)

/-- The `@@ -a,b +c,d @@` header of a hunk. -/
def hunkHeader (h : List AnnChange) : String :=
  let oldStart := ((h.head?.map fun c => c.oldIdx).getD 0) + 1
  let newStart := ((h.head?.map fun c => c.newIdx).getD 0) + 1
  let oldCount := h.countP fun c => decide (c.tag ≠ ChangeTag.Insert)
  let newCount := h.countP fun c => decide (c.tag ≠ ChangeTag.Delete)
  "@@ -" ++ toString oldStart ++ "," ++ toString oldCount ++
    " +" ++ toString newStart ++ "," ++ toString newCount ++ " @@"

/-- The inner rendering loop over one hunk's changes, stopping (with the
truncation flag latched) once the output reaches `max_bytes`. -/
def renderHunkLines (max_bytes : Nat) :
    List AnnChange → String → Bool → String × Bool
  | [], out, trunc => (out, trunc)
  | c :: cs, out, trunc =>
    if max_bytes ≤ out.utf8ByteSize then (out, true)
    else
      let pfx :=
        match c.tag with
        | ChangeTag.Delete => "-"
        | ChangeTag.Insert => "+"
        | ChangeTag.Equal => " "
      renderHunkLines max_bytes cs (out ++ pfx ++ c.value ++ "\n") trunc

/-- The outer rendering loop over the hunks. -/
def renderHunks (max_bytes : Nat) :
    List (List AnnChange) → String → Bool → String × Bool
  | [], out, trunc => (out, trunc)
  | h :: hs, out, trunc =>
    if max_bytes ≤ out.utf8ByteSize then (out, true)
    else
      let r := renderHunkLines max_bytes h (out ++ hunkHeader h ++ "\n") trunc
      renderHunks max_bytes hs r.1 r.2

/-- Generate unified diff output from line slices (src/compare_text.rs
`generate_unified_diff_from_slices`). The hunk iteration of the `similar`
crate (`unified_diff().context_radius(3).iter_hunks()`) is modelled from
the spec: hunks cover the non-equal changes with three lines of context. -/
def generate_unified_diff_from_slices (file1_name file2_name : String)
    (lines1 lines2 : List String) (max_bytes : Nat) : String × Bool :=
  let anns := annotateChanges 0 0 (diffChanges lines1 lines2)
  let hunks := (groupRuns 3 (changedIndices anns)).map fun r => hunkSlice anns 3 r
  let header := "--- " ++ file1_name ++ "\n" ++ "+++ " ++ file2_name ++ "\n"
  let res := renderHunks max_bytes hunks header false
  if res.2 then (res.1 ++ "\n... [diff truncated] ...\n", true) else res

/-- Scan the zipped character/usage list for the first position in
`[lo, hi]` holding character `c` and not yet used. -/
def findMatchIdxAux (c : Char) (lo hi : Nat) : Nat → List (Char × Bool) → Option Nat
  | _, [] => none
  | j, e :: rest =>
    if lo ≤ j ∧ j ≤ hi ∧ e.1 = c ∧ e.2 = false then some j
    else findMatchIdxAux c lo hi (j + 1) rest

/-- Modelled from the spec: `strsim::jaro_winkler` (external crate), used by
the `CharJaro` similarity algorithm. Greedy Jaro matching within the
half-max window: first unused position of `b` within the window holding the
same character. -/
def findMatchIdx (c : Char) (i range : Nat) (b : List Char) (used : List Bool) :
    Option Nat :=
  findMatchIdxAux c (i - range) (i + range) 0 (b.zip used)

/-- Usage flags over `n` positions with exactly the first `k` marked used
(the state of the Jaro matching loop on identical strings). -/
def usedUpTo (n k : Nat) : List Bool :=
  (List.range n).map fun j => decide (j < k)

/-- The Jaro matching loop: returns the matched characters of `a` in order
and the final usage flags over `b`. -/
def jaroLoop (range : Nat) (b : List Char) :
    Nat → List Char → List Bool → List Char × List Bool
  | _, [], used => ([], used)
  | i, c :: cs, used =>
    match findMatchIdx c i range b used with
    | some j =>
      let r := jaroLoop range b (i + 1) cs (used.set j true)
      (c :: r.1, r.2)
    | none => jaroLoop range b (i + 1) cs used

/-- Jaro similarity of two strings, in ℚ. -/
def jaroSim (s1 s2 : String) : ℚ :=
  let a := s1.data
  let b := s2.data
  if a = [] ∧ b = [] then 1
  else if a = [] ∨ b = [] then 0
  else
    let range := max a.length b.length / 2 - 1
    let r := jaroLoop range b 0 a (b.map fun _ => false)
    let matchesA := r.1
    let matchesB := ((b.zip r.2).filter fun p => p.2).map fun p => p.1
    let m := matchesA.length
    if m = 0 then 0
    else
      let t : ℚ :=
        ((matchesA.zip matchesB).countP fun p => decide (p.1 ≠ p.2) : Nat) / 2
      ((m : ℚ) / a.length + (m : ℚ) / b.length + ((m : ℚ) - t) / m) / 3

/-- Jaro-Winkler similarity of two strings, in ℚ. -/
def jaro_winkler (s1 s2 : String) : ℚ :=
  let j := jaroSim s1 s2
  let common4 := min ((s1.data.zip s2.data).takeWhile fun p => p.1 = p.2).length 4
  j + (common4 : ℚ) * (1 / 10) * (1 - j)

/-- Compare two text files (src/compare_text.rs `compare_text_files`).
Takes the two files' lines after `read_normalized_lines` (the source reads
and normalises from disk); the optional compiled ignore-regex substitution
is applied to both sides before diffing. -/
def compare_text_files (file1 file2 : FileEntry) (lines1 lines2 : List String)
    (config : CompareConfig) : TextComparisonResult :=
  let flines1 :=
    match config.ignore_regex with
    | some sub => lines1.map sub
    | none => lines1
  let flines2 :=
    match config.ignore_regex with
    | some sub => lines2.map sub
    | none => lines2
  let changes := diffChanges flines1 flines2
  let st := collectStats config.max_diff_bytes 0 changes ⟨0, 0, 0, [], "", 0, false⟩
  let similarity_score :=
    match config.similarity_algorithm with
    | SimilarityAlgorithm.Diff =>
      let total := st.common_lines + st.only_in_file1 + st.only_in_file2
      if 0 < total then (st.common_lines : ℚ) / (total : ℚ) else 1
    | SimilarityAlgorithm.CharJaro =>
      jaro_winkler (String.intercalate "\n" flines1) (String.intercalate "\n" flines2)
  let ud := generate_unified_diff_from_slices file1.path file2.path
    flines1 flines2 config.max_diff_bytes
  { linked_id := file1.content_hash.take 16 ++ ":" ++ file2.content_hash.take 16
    file1_path := file1.path
    file2_path := file2.path
    file1_line_count := flines1.length
    file2_line_count := flines2.length
    common_lines := st.common_lines
    only_in_file1 := st.only_in_file1
    only_in_file2 := st.only_in_file2
    similarity_score := similarity_score
    different_positions := encode_ranges st.different_positions
    detailed_diff := if ud.1 = "" then st.detailed_diff else ud.1
    diff_truncated := st.diff_truncated || ud.2
    identical := decide (st.only_in_file1 = 0 ∧ st.only_in_file2 = 0) }

/-! ## Engine dispatch (src/lib.rs) -/

/-- Auto-detect comparison mode based on file types (src/lib.rs
`auto_detect_mode`). -/
def auto_detect_mode (file1 file2 : FileEntry) : CompareMode :=
  if file1.file_type.is_structured ∧ file2.file_type.is_structured then
    CompareMode.Structured
  else if file1.file_type = FileType.Binary ∨ file2.file_type = FileType.Binary then
    CompareMode.Text
  else CompareMode.Text

/-- Synthesised result for an exact-hash-match pair (src/lib.rs
`create_identical_result`). -/
def create_identical_result (file1 file2 : FileEntry) : ComparisonResult :=
  let linked_id := file1.content_hash.take 16 ++ ":" ++ file2.content_hash.take 16
  if file1.file_type = FileType.Binary ∨ file2.file_type = FileType.Binary then
    ComparisonResult.HashOnly linked_id file1.path file2.path file1.size file2.size true
  else if file1.file_type.is_structured ∧ file2.file_type.is_structured then
    ComparisonResult.Structured
      { linked_id := linked_id
        file1_path := file1.path
        file2_path := file2.path
        file1_row_count := file1.line_count
        file2_row_count := file2.line_count
        common_records := file1.line_count
        only_in_file1 := 0
        only_in_file2 := 0
        similarity_score := 1
        field_mismatches := []
        total_field_mismatches := 0
        columns_only_in_file1 := []
        columns_only_in_file2 := []
        common_columns := file1.columns.getD []
        identical := true }
  else
    ComparisonResult.Text
      { linked_id := linked_id
        file1_path := file1.path
        file2_path := file2.path
        file1_line_count := file1.line_count
        file2_line_count := file2.line_count
        common_lines := file1.line_count
        only_in_file1 := 0
        only_in_file2 := 0
        similarity_score := 1
        different_positions := ""
        detailed_diff := ""
        diff_truncated := false
        identical := true }

/-- Compare a single candidate pair (src/lib.rs
`ComparisonEngine::compare_pair`). The two backend invocations perform file
I/O in the source and return `anyhow::Result`; their outcomes are passed
here as `Except` values (`Except.error` carries the stringified error). -/
def compare_pair (config : CompareConfig) (pair : CandidatePair)
    (textOutcome : Except String TextComparisonResult)
    (structuredOutcome : Except String StructuredComparisonResult) :
    ComparisonResult :=
  if pair.exact_hash_match then create_identical_result pair.file1 pair.file2
  else
    let mode :=
      match config.mode with
      | CompareMode.Auto => auto_detect_mode pair.file1 pair.file2
      | CompareMode.Text => CompareMode.Text
      | CompareMode.Structured => CompareMode.Structured
    match mode with
    | CompareMode.Text =>
      match textOutcome with
      | Except.ok r => ComparisonResult.Text r
      | Except.error e => ComparisonResult.Error pair.file1.path pair.file2.path e
    | CompareMode.Structured =>
      match structuredOutcome with
      | Except.ok r => ComparisonResult.Structured r
      | Except.error e => ComparisonResult.Error pair.file1.path pair.file2.path e
    | CompareMode.Auto =>
      match textOutcome with
      | Except.ok r => ComparisonResult.Text r
      | Except.error e => ComparisonResult.Error pair.file1.path pair.file2.path e

/-! ## Claim-side specification definitions -/

/-- The estimated-similarity precedence as the (amended) claim words it:
(1) 1.0 for equal non-empty content hashes; (2) `1 - hamming/64` when both
entries have a SimHash; (3) 0.5 when both have schema signatures and they
are equal; (4) `min(size)/max(size) * 0.3` when both sizes are positive;
(5) 0. Stated separately from `estimate_similarity` (which is translated
from the source) for comparison. -/
def estimate_similarity_claim (f1 f2 : FileEntry) : ℚ :=
  if f1.content_hash ≠ "" ∧ f1.content_hash = f2.content_hash then 1
  else if f1.simhash.isSome ∧ f2.simhash.isSome then
    1 - (hamming_distance (f1.simhash.getD 0) (f2.simhash.getD 0) : ℚ) / 64
  else if f1.schema_signature.isSome ∧ f2.schema_signature.isSome ∧
      f1.schema_signature = f2.schema_signature then (1 : ℚ) / 2
  else if 0 < f1.size ∧ 0 < f2.size then
    ((min f1.size f2.size : Nat) : ℚ) / ((max f1.size f2.size : Nat) : ℚ) * (3 / 10)
  else 0

/-- Shingle generation as the (amended) claim words it: all word n-grams
(space-joined) when at least `n` tokens exist, else a single shingle of all
tokens joined by spaces when at least one token exists, else no word
shingle; plus all line n-grams (newline-joined) when at least `n` lines
exist, with no whole-content fallback below `n` lines. Stated separately
from `generate_shingles` (which is translated from the source). -/
def generate_shingles_spec (lines : List String) (n : Nat) : List String :=
  let ws := wordTokens lines
  (if n ≤ ws.length then
      (List.range (ws.length + 1 - n)).map fun i =>
        String.intercalate " " ((ws.drop i).take n)
    else if ws = [] then [] else [String.intercalate " " ws]) ++
  (if n ≤ lines.length then
      (List.range (lines.length + 1 - n)).map fun i =>
        String.intercalate "\n" ((lines.drop i).take n)
    else [])

/-! ## Concrete sample inputs used by witnesses and counterexamples -/

/-- A concrete configuration with all defaults relevant to the claims:
numeric tolerance 0, diff similarity, no ignore regex. -/
def sampleConfig : CompareConfig :=
  ⟨CompareMode.Auto, PairingStrategy.AllVsAll, 3, none, [], 0,
    ⟨false, false, false, false, false⟩, SimilarityAlgorithm.Diff,
    1048576, false, [], [], none⟩

/-- A concrete CSV file entry. -/
def sampleCsvEntry1 : FileEntry :=
  ⟨"a.csv", 10, FileType.Csv, "csv", "aaaa", none, none, 2, some ["id", "v"]⟩

/-- A second concrete CSV file entry. -/
def sampleCsvEntry2 : FileEntry :=
  ⟨"b.csv", 10, FileType.Csv, "csv", "bbbb", none, none, 2, some ["id", "v"]⟩

/-- A concrete text file entry. -/
def sampleTextEntry : FileEntry :=
  ⟨"a.txt", 6, FileType.Text, "txt", "cccc", none, none, 1, none⟩

/-! ## Theorems: digit rendering and list splitting -/

theorem charVal_digitChar {d : Nat} (hd : d < 10) : charVal (Nat.digitChar d) = d := by
  interval_cases d <;> rfl

theorem digitChar_isDigit {d : Nat} (hd : d < 10) : (Nat.digitChar d).isDigit = true := by
  interval_cases d <;> rfl

theorem natToChars_isDigit {n : Nat} {c : Char} (hc : c ∈ natToChars n) :
    c.isDigit = true := by
  unfold natToChars at hc
  split at hc
  · simp at hc
    subst hc
    rfl
  · rw [List.mem_reverse, List.mem_map] at hc
    obtain ⟨d, hd, rfl⟩ := hc
    exact digitChar_isDigit (Nat.digits_lt_base (by norm_num) hd)

theorem natToChars_ne_nil (n : Nat) : natToChars n ≠ [] := by
  unfold natToChars
  split
  · simp
  · simp only [ne_eq, List.reverse_eq_nil_iff, List.map_eq_nil_iff]
    exact Nat.digits_ne_nil_iff_ne_zero.mpr (by assumption)

theorem parseNatChars_natToChars (n : Nat) : parseNatChars (natToChars n) = n := by
  unfold parseNatChars natToChars
  split
  · subst n
    rfl
  · rw [List.map_reverse, List.reverse_reverse, List.map_map]
    rw [show (Nat.digits 10 n).map (charVal ∘ Nat.digitChar) = (Nat.digits 10 n).map id from
      List.map_congr_left fun d hd => charVal_digitChar (Nat.digits_lt_base (by norm_num) hd)]
    rw [List.map_id, Nat.ofDigits_digits]

theorem splitOnChar_cons (sep c : Char) (cs : List Char) :
    splitOnChar sep (c :: cs) =
      if c = sep then [] :: splitOnChar sep cs
      else (c :: (splitOnChar sep cs).headD []) :: (splitOnChar sep cs).tail := rfl

theorem splitOnChar_ne_nil (sep : Char) (l : List Char) : splitOnChar sep l ≠ [] := by
  cases l with
  | nil => simp [splitOnChar]
  | cons c cs =>
    unfold splitOnChar
    split <;> simp

theorem splitOnChar_of_not_mem {sep : Char} {p : List Char} (hp : sep ∉ p) :
    splitOnChar sep p = [p] := by
  induction p with
  | nil => rfl
  | cons c cs ih =>
    have hc : c ≠ sep := fun h => hp (h ▸ List.mem_cons_self c cs)
    have hcs : sep ∉ cs := fun h => hp (List.mem_cons_of_mem c h)
    unfold splitOnChar
    rw [ih hcs]
    simp [hc]

theorem splitOnChar_append {sep : Char} {p : List Char} (hp : sep ∉ p) (rest : List Char) :
    splitOnChar sep (p ++ sep :: rest) = p :: splitOnChar sep rest := by
  induction p with
  | nil =>
    show splitOnChar sep (sep :: rest) = [] :: splitOnChar sep rest
    rw [splitOnChar_cons]
    simp
  | cons c cs ih =>
    have hc : c ≠ sep := fun h => hp (h ▸ List.mem_cons_self c cs)
    have hcs : sep ∉ cs := fun h => hp (List.mem_cons_of_mem c h)
    show splitOnChar sep (c :: (cs ++ sep :: rest)) = (c :: cs) :: splitOnChar sep rest
    rw [splitOnChar_cons, ih hcs]
    simp [hc]

theorem splitOnChar_joinChar {sep : Char} :
    ∀ {pieces : List (List Char)}, pieces ≠ [] → (∀ p ∈ pieces, sep ∉ p) →
      splitOnChar sep (joinChar sep pieces) = pieces
  | [], h, _ => absurd rfl h
  | [p], _, hall => by
      simpa [joinChar] using splitOnChar_of_not_mem (hall p (by simp))
  | p :: q :: ps, _, hall => by
      have hp : sep ∉ p := hall p (by simp)
      have hrest : ∀ r ∈ q :: ps, sep ∉ r := fun r hr => hall r (List.mem_cons_of_mem p hr)
      show splitOnChar sep (p ++ sep :: joinChar sep (q :: ps)) = p :: q :: ps
      rw [splitOnChar_append hp, splitOnChar_joinChar (by simp) hrest]

theorem joinChar_ne_nil {sep : Char} :
    ∀ {pieces : List (List Char)}, pieces ≠ [] → (∀ p ∈ pieces, p ≠ []) →
      joinChar sep pieces ≠ []
  | [], h, _ => absurd rfl h
  | [p], _, hall => by simpa [joinChar] using hall p (by simp)
  | p :: q :: ps, _, hall => by
      have hp : p ≠ [] := hall p (by simp)
      show p ++ sep :: joinChar sep (q :: ps) ≠ []
      simp [hp]

theorem rangeClosed_self (s : Nat) : rangeClosed s s = [s] := by
  unfold rangeClosed
  simp [Nat.add_sub_cancel_left, List.range_succ]

theorem rangeClosed_succ {s e : Nat} (h : s ≤ e + 1) :
    rangeClosed s (e + 1) = rangeClosed s e ++ [e + 1] := by
  unfold rangeClosed
  have h1 : e + 1 + 1 - s = (e + 1 - s) + 1 := by omega
  rw [h1, List.range_succ, List.map_append]
  simp only [List.map_cons, List.map_nil]
  congr 2
  omega

theorem comma_not_mem_renderRange (s e : Nat) : ',' ∉ renderRange s e := by
  intro hmem
  unfold renderRange at hmem
  split at hmem
  · exact absurd (natToChars_isDigit hmem) (by decide)
  · rw [List.mem_append, List.mem_cons] at hmem
    rcases hmem with h | h | h
    · exact absurd (natToChars_isDigit h) (by decide)
    · exact absurd h (by decide)
    · exact absurd (natToChars_isDigit h) (by decide)

theorem renderRange_ne_nil (s e : Nat) : renderRange s e ≠ [] := by
  unfold renderRange
  split
  · exact natToChars_ne_nil s
  · simp [natToChars_ne_nil s]

theorem encodeRangesPieces_ne_nil (s e : Nat) (l : List Nat) :
    encodeRangesPieces s e l ≠ [] := by
  cases l with
  | nil => simp [encodeRangesPieces]
  | cons p rest => unfold encodeRangesPieces; split <;> simp [encodeRangesPieces_ne_nil]

theorem encodeRangesPieces_comma_free (s e : Nat) (l : List Nat) :
    ∀ p ∈ encodeRangesPieces s e l, ',' ∉ p := by
  induction l generalizing s e with
  | nil =>
    intro p hp
    simp only [encodeRangesPieces, List.mem_singleton] at hp
    exact hp ▸ comma_not_mem_renderRange s e
  | cons q rest ih =>
    intro p hp
    unfold encodeRangesPieces at hp
    split at hp
    · exact ih s q p hp
    · rcases List.mem_cons.mp hp with rfl | hp
      · exact comma_not_mem_renderRange s e
      · exact ih q q p hp

theorem encodeRangesPieces_nonempty_pieces (s e : Nat) (l : List Nat) :
    ∀ p ∈ encodeRangesPieces s e l, p ≠ [] := by
  induction l generalizing s e with
  | nil =>
    intro p hp
    simp only [encodeRangesPieces, List.mem_singleton] at hp
    exact hp ▸ renderRange_ne_nil s e
  | cons q rest ih =>
    intro p hp
    unfold encodeRangesPieces at hp
    split at hp
    · exact ih s q p hp
    · rcases List.mem_cons.mp hp with rfl | hp
      · exact renderRange_ne_nil s e
      · exact ih q q p hp

/-- Decoding one rendered piece recovers the closed range. -/
theorem decodePiece_renderRange {s e : Nat} (hse : s ≤ e) :
    decodePiece (renderRange s e) = rangeClosed s e := by
  unfold renderRange
  by_cases h : s = e
  · subst h
    rw [if_pos rfl]
    unfold decodePiece
    have hdash : '-' ∉ natToChars s := fun hm => absurd (natToChars_isDigit hm) (by decide)
    rw [splitOnChar_of_not_mem hdash]
    simp [parseNatChars_natToChars, rangeClosed_self]
  · rw [if_neg h]
    unfold decodePiece
    have hdash1 : '-' ∉ natToChars s := fun hm => absurd (natToChars_isDigit hm) (by decide)
    have hdash2 : '-' ∉ natToChars e := fun hm => absurd (natToChars_isDigit hm) (by decide)
    rw [splitOnChar_append hdash1, splitOnChar_of_not_mem hdash2]
    simp [parseNatChars_natToChars]

theorem flatMap_encodeRangesPieces {l : List Nat} :
    ∀ {s e : Nat}, s ≤ e →
      (encodeRangesPieces s e l).flatMap decodePiece = rangeClosed s e ++ l := by
  induction l with
  | nil =>
    intro s e hse
    simp only [encodeRangesPieces, List.flatMap_cons, List.flatMap_nil, List.append_nil]
    exact decodePiece_renderRange hse
  | cons p rest ih =>
    intro s e hse
    unfold encodeRangesPieces
    split
    · next hp =>
      subst hp
      rw [ih (by omega), rangeClosed_succ (by omega), List.append_assoc]
      rfl
    · rw [List.flatMap_cons, decodePiece_renderRange hse, ih (le_refl p), rangeClosed_self]
      rfl

/-- The decode-encode round trip at the level of position lists. -/
theorem decode_encode_ranges (l : List Nat) : decode_ranges (encode_ranges l) = l := by
  cases l with
  | nil => rfl
  | cons p rest =>
    have hpieces := encodeRangesPieces_ne_nil p p rest
    have hjoin : joinChar ',' (encodeRangesPieces p p rest) ≠ [] :=
      joinChar_ne_nil hpieces (encodeRangesPieces_nonempty_pieces p p rest)
    show decode_ranges (String.mk (joinChar ',' (encodeRangesPieces p p rest))) = p :: rest
    unfold decode_ranges
    rw [show (String.mk (joinChar ',' (encodeRangesPieces p p rest))).data =
      joinChar ',' (encodeRangesPieces p p rest) from rfl]
    rw [if_neg hjoin,
      splitOnChar_joinChar hpieces (encodeRangesPieces_comma_free p p rest),
      flatMap_encodeRangesPieces (le_refl p), rangeClosed_self]
    rfl

/-! ## Theorems: range-string round trip and values_equal -/

theorem parseFloat_one : parseFloat "1" = some 1 := by
  have h : parseFloat "1" = some ((1 : ℚ) * ((Nat.ofDigits 10 [1] : ℕ) : ℚ)) := rfl
  rw [h]
  norm_num [Nat.ofDigits_cons, Nat.ofDigits_nil]

theorem parseFloat_onePointZero : parseFloat "1.0" = some 1 := by
  have h : parseFloat "1.0" =
      some ((1 : ℚ) * (((Nat.ofDigits 10 [1] : ℕ) : ℚ)
        + ((Nat.ofDigits 10 [0] : ℕ) : ℚ) / (10 : ℚ) ^ 1)) := rfl
  rw [h]
  norm_num [Nat.ofDigits_cons, Nat.ofDigits_nil]

/-- Claim C3 counterexample: at tolerance 0 the strings `"1"` and `"1.0"`
are accepted as equal by `values_equal` although they differ as strings, so
field equality does not reduce to exact string equality. -/
theorem c3_tolerance_zero_counterexample :
    values_equal "1" "1.0" 0 = true ∧ "1" ≠ "1.0" := by
  refine ⟨?_, by decide⟩
  unfold values_equal
  rw [if_neg (by decide : ¬ ("1" : String) = "1.0"), parseFloat_one,
    parseFloat_onePointZero]
  norm_num

/-- Claim C3 (amended): at tolerance 0, `values_equal a b 0` holds iff the
strings are equal, or both parse as (finite) numbers with the same numeric
value. -/
theorem c3_values_equal_zero_tolerance (a b : String) :
    values_equal a b 0 = true ↔
      a = b ∨ ∃ q, parseFloat a = some q ∧ parseFloat b = some q := by
  unfold values_equal
  by_cases hab : a = b
  · simp [hab]
  · rw [if_neg hab]
    cases hA : parseFloat a with
    | none => simp [hab]
    | some n1 =>
      cases hB : parseFloat b with
      | none => simp [hab]
      | some n2 =>
        simp only [hab, false_or]
        constructor
        · intro h
          refine ⟨n1, rfl, ?_⟩
          have hval : n1 = n2 := by
            by_cases h1 : |n1 - n2| ≤ 0
            · have : n1 - n2 = 0 := abs_nonpos_iff.mp h1
              linarith
            · rw [if_neg h1] at h
              by_cases h2 : 0 < max |n1| |n2| ∧ |n1 - n2| / max |n1| |n2| ≤ 0
              · obtain ⟨hpos, hdiv⟩ := h2
                have habs : 0 ≤ |n1 - n2| := abs_nonneg _
                have : |n1 - n2| ≤ 0 := by
                  have := (div_le_iff hpos).mp hdiv
                  linarith
                exact absurd this h1
              · rw [if_neg h2] at h
                exact absurd h (by simp)
          rw [hval]
        · rintro ⟨q, hq1, hq2⟩
          have h1 : n1 = q := by injection hq1
          have h2 : n2 = q := by injection hq2
          subst h1
          subst h2
          simp

/-- Claim C4 counterexample: two fingerprint-failed entries with equal
(empty) content hashes do not get estimated similarity 1.0 — the source
additionally requires the hash to be non-empty, and here the SimHash branch
yields 0 instead. -/
theorem c4_estimate_similarity_counterexample :
    (⟨"x", 0, FileType.Text, "txt", "", some 0, none, 0, none⟩ : FileEntry).content_hash
        = (⟨"y", 0, FileType.Text, "txt", "", some 18446744073709551615, none, 0,
            none⟩ : FileEntry).content_hash
      ∧ estimate_similarity
          ⟨"x", 0, FileType.Text, "txt", "", some 0, none, 0, none⟩
          ⟨"y", 0, FileType.Text, "txt", "", some 18446744073709551615, none, 0,
            none⟩ ≠ 1 := by
  refine ⟨rfl, ?_⟩
  have hall : ∀ i ∈ List.range 64, ((0 ^^^ 18446744073709551615 : ℕ).testBit i) = true := by
    intro i hi
    rw [List.mem_range] at hi
    rw [Nat.zero_xor, show (18446744073709551615 : ℕ) = 2 ^ 64 - 1 by norm_num,
      Nat.testBit_two_pow_sub_one]
    exact decide_eq_true hi
  have hh : hamming_distance 0 18446744073709551615 = 64 := by
    unfold hamming_distance
    rw [List.countP_eq_length.mpr hall, List.length_range]
  have hsim : simhash_similarity 0 18446744073709551615 = 0 := by
    unfold simhash_similarity
    rw [hh]
    norm_num
  have hes : estimate_similarity
      ⟨"x", 0, FileType.Text, "txt", "", some 0, none, 0, none⟩
      ⟨"y", 0, FileType.Text, "txt", "", some 18446744073709551615, none, 0, none⟩
      = simhash_similarity 0 18446744073709551615 := by
    simp [estimate_similarity]
  rw [hes, hsim]
  norm_num

/-- Claim C4 (amended): the estimated similarity follows the defined
precedence, with step (1) requiring the content hashes to be equal and
non-empty (fingerprint-failed entries have an empty hash and fall
through). -/
theorem c4_estimate_similarity_precedence (f1 f2 : FileEntry) :
    estimate_similarity f1 f2 = estimate_similarity_claim f1 f2 := by
  obtain ⟨p1, sz1, ft1, e1, ch1, sh1, ss1, lc1, co1⟩ := f1
  obtain ⟨p2, sz2, ft2, e2, ch2, sh2, ss2, lc2, co2⟩ := f2
  cases sh1 <;> cases sh2 <;> cases ss1 <;> cases ss2 <;>
    simp [estimate_similarity, estimate_similarity_claim, sizeFallback,
      simhash_similarity] <;>
    split_ifs <;> simp_all

/-! ## Theorems: exact-hash matching -/

/-- A successful scan returns an entry with the sought non-empty hash whose
path is not yet consumed. -/
theorem findFirstUnmatchedByHash_some {h : String} {matched : List String} :
    ∀ {l : List FileEntry} {f : FileEntry},
      findFirstUnmatchedByHash h matched l = some f →
        f.content_hash ≠ "" ∧ f.content_hash = h ∧ ¬ matched.contains f.path
  | [], f, hf => by simp [findFirstUnmatchedByHash] at hf
  | g :: gs, f, hf => by
    unfold findFirstUnmatchedByHash at hf
    split at hf
    · next hcond =>
      obtain rfl : g = f := by injection hf
      exact hcond
    · exact findFirstUnmatchedByHash_some hf

/-- Every pair emitted by the exact-hash loop has equal non-empty hashes,
the exact-hash flag, and estimated similarity 1. -/
theorem exactHashLoop_pairs (files2 : List FileEntry) :
    ∀ (files1 : List FileEntry) (matched : List String),
      ∀ p ∈ exactHashLoop files2 files1 matched,
        p.file1.content_hash = p.file2.content_hash ∧ p.file1.content_hash ≠ "" ∧
          p.exact_hash_match = true ∧ p.estimated_similarity = 1
  | [], matched => by simp [exactHashLoop]
  | f1 :: rest, matched => by
    intro p hp
    unfold exactHashLoop at hp
    split at hp
    · next hne =>
      cases hfind : findFirstUnmatchedByHash f1.content_hash matched files2 with
      | some f2 =>
        rw [hfind] at hp
        rcases List.mem_cons.mp hp with rfl | hp
        · obtain ⟨hne2, hEq, hnm⟩ := findFirstUnmatchedByHash_some hfind
          exact ⟨hEq.symm, hne, rfl, rfl⟩
        · exact exactHashLoop_pairs files2 rest (f2.path :: matched) p hp
      | none =>
        rw [hfind] at hp
        exact exactHashLoop_pairs files2 rest matched p hp
    · exact exactHashLoop_pairs files2 rest matched p hp

/-- The right-side paths emitted by the exact-hash loop are pairwise
distinct and disjoint from the already-consumed paths. -/
theorem exactHashLoop_nodup (files2 : List FileEntry) :
    ∀ (files1 : List FileEntry) (matched : List String),
      ((exactHashLoop files2 files1 matched).map fun p => p.file2.path).Nodup ∧
        ∀ p ∈ exactHashLoop files2 files1 matched, ¬ matched.contains p.file2.path
  | [], matched => by simp [exactHashLoop]
  | f1 :: rest, matched => by
    unfold exactHashLoop
    split
    · cases hfind : findFirstUnmatchedByHash f1.content_hash matched files2 with
      | some f2 =>
        obtain ⟨hne2, hEq, hnm⟩ := findFirstUnmatchedByHash_some hfind
        obtain ⟨ihN, ihD⟩ := exactHashLoop_nodup files2 rest (f2.path :: matched)
        refine ⟨?_, ?_⟩
        · rw [List.map_cons, List.nodup_cons]
          refine ⟨?_, ihN⟩
          intro hmem
          rw [List.mem_map] at hmem
          obtain ⟨q, hq, hqp⟩ := hmem
          have := ihD q hq
          rw [List.contains_cons] at this
          simp [hqp] at this
        · intro p hp
          rcases List.mem_cons.mp hp with rfl | hp
          · exact hnm
          · have hD := ihD p hp
            rw [List.contains_cons] at hD
            intro hc
            have hmem : p.file2.path ∈ matched := by simpa using hc
            exact hD (by simp [hmem])
      | none =>
        exact exactHashLoop_nodup files2 rest matched
    · exact exactHashLoop_nodup files2 rest matched

/-- Claim C6: the exact-hash pass pairs 1:1 on the right side — no right
entry path appears in two emitted pairs — and every emitted pair has equal
non-empty content hashes, `exact_hash_match = true`, and estimated
similarity 1. -/
theorem c6_exact_hash_pass (files1 files2 : List FileEntry) :
    ((find_exact_hash_matches files1 files2).map fun p => p.file2.path).Nodup ∧
      ∀ p ∈ find_exact_hash_matches files1 files2,
        p.file1.content_hash = p.file2.content_hash ∧ p.file1.content_hash ≠ "" ∧
          p.exact_hash_match = true ∧ p.estimated_similarity = 1 :=
  ⟨(exactHashLoop_nodup files2 files1 []).1, exactHashLoop_pairs files2 files1 []⟩

/-- Witness for C6: two left entries with the same hash, one matching right
entry; the single emitted pair carries the hash and flags. -/
theorem c6_exact_hash_pass_witness :
    ∀ p ∈ find_exact_hash_matches
        [⟨"a", 1, FileType.Text, "txt", "h", none, none, 1, none⟩,
          ⟨"b", 1, FileType.Text, "txt", "h", none, none, 1, none⟩]
        [⟨"c", 1, FileType.Text, "txt", "h", none, none, 1, none⟩],
      p.file1.content_hash = p.file2.content_hash ∧ p.file1.content_hash ≠ "" ∧
        p.exact_hash_match = true ∧ p.estimated_similarity = 1 :=
  (c6_exact_hash_pass
    [⟨"a", 1, FileType.Text, "txt", "h", none, none, 1, none⟩,
      ⟨"b", 1, FileType.Text, "txt", "h", none, none, 1, none⟩]
    [⟨"c", 1, FileType.Text, "txt", "h", none, none, 1, none⟩]).2

/-! ## Theorems: all-vs-all candidate list -/

/-- Sorting with the descending-similarity comparator yields a list whose
estimated similarities are monotonically non-increasing. -/
theorem mergeSort_desc_sorted (l : List CandidatePair) :
    (l.mergeSort fun a b => decide (b.estimated_similarity ≤ a.estimated_similarity)).Pairwise
      fun a b => b.estimated_similarity ≤ a.estimated_similarity := by
  have htrans : ∀ a b c : CandidatePair,
      (fun a b : CandidatePair =>
        decide (b.estimated_similarity ≤ a.estimated_similarity)) a b = true →
      (fun a b : CandidatePair =>
        decide (b.estimated_similarity ≤ a.estimated_similarity)) b c = true →
      (fun a b : CandidatePair =>
        decide (b.estimated_similarity ≤ a.estimated_similarity)) a c = true := by
    intro a b c hab hbc
    simp only [decide_eq_true_eq] at *
    exact le_trans hbc hab
  have htotal : ∀ a b : CandidatePair,
      ((fun a b : CandidatePair =>
        decide (b.estimated_similarity ≤ a.estimated_similarity)) a b ||
       (fun a b : CandidatePair =>
        decide (b.estimated_similarity ≤ a.estimated_similarity)) b a) = true := by
    intro a b
    simp only [Bool.or_eq_true, decide_eq_true_eq]
    exact le_total b.estimated_similarity a.estimated_similarity
  exact (List.sorted_mergeSort htrans htotal l).imp fun hab => of_decide_eq_true hab

/-- Claim C5: the all-vs-all candidate list is sorted by non-increasing
estimated similarity, and contains at most `max_pairs` pairs when that cap
is set. -/
theorem c5_all_vs_all_sorted_bounded (files1 files2 : List FileEntry)
    (top_k : Nat) (max_pairs : Option Nat) :
    (all_vs_all_match files1 files2 top_k max_pairs).Sorted
        (fun a b => b.estimated_similarity ≤ a.estimated_similarity) ∧
      ∀ m, max_pairs = some m →
        (all_vs_all_match files1 files2 top_k max_pairs).length ≤ m := by
  unfold all_vs_all_match
  cases max_pairs with
  | none =>
    refine ⟨mergeSort_desc_sorted _, ?_⟩
    intro m hm
    cases hm
  | some m =>
    refine ⟨List.Pairwise.sublist (List.take_sublist m _) (mergeSort_desc_sorted _), ?_⟩
    intro m2 hm2
    obtain rfl : m = m2 := by injection hm2
    exact List.length_take_le m _

/-- Witness for C5: with the cap set to 0, the candidate list is empty. -/
theorem c5_all_vs_all_sorted_bounded_witness :
    (all_vs_all_match [] [] 3 (some 0)).length ≤ 0 :=
  (c5_all_vs_all_sorted_bounded [] [] 3 (some 0)).2 0 rfl

/-! ## Theorems: shingle generation -/

/-- The `windows n` list enumerates exactly the `length + 1 - n` index-wise n-grams. -/
theorem windows_eq_ranges {α : Type} (n : Nat) (hn : 0 < n) (l : List α) :
    windows n l = (List.range (l.length + 1 - n)).map fun i => (l.drop i).take n := by
  induction l with
  | nil =>
    have h0 : ([] : List α).length + 1 - n = 0 := by
      simp only [List.length_nil]
      omega
    rw [h0]
    rfl
  | cons x t ih =>
    by_cases hle : n ≤ t.length + 1
    · unfold windows
      rw [if_pos ⟨hn, hle⟩]
      have hlen : (x :: t).length + 1 - n = (t.length + 1 - n) + 1 := by
        simp only [List.length_cons]
        omega
      rw [hlen, List.range_succ_eq_map, List.map_cons, ih, List.map_map]
      congr 1
    · unfold windows
      rw [if_neg (by tauto)]
      have hlen : (x :: t).length + 1 - n = 0 := by
        simp only [List.length_cons]
        omega
      rw [hlen]
      rfl

/-- Claim C9 counterexample: the two-line input `["a", "b"]` has fewer than
three tokens and lines, yet its only shingle is the space-joined token list
`"a b"`, not the whole content `"a\nb"` — there is no whole-content
shingle. -/
theorem c9_generate_shingles_counterexample :
    generate_shingles ["a", "b"] 3 = ["a b"] ∧
      ("a b" : String) ≠ String.intercalate "\n" ["a", "b"] := by
  constructor
  · decide
  · decide

/-- Claim C9 (amended): `generate_shingles` emits exactly the word n-grams
(or the all-tokens shingle when fewer than `n` but at least one token, and
nothing for zero tokens) followed by the line n-grams when at least `n`
lines exist (no whole-content fallback for fewer lines). -/
theorem c9_generate_shingles_characterisation (lines : List String) :
    generate_shingles lines 3 = generate_shingles_spec lines 3 := by
  unfold generate_shingles generate_shingles_spec
  dsimp only
  rw [windows_eq_ranges 3 (by norm_num), windows_eq_ranges 3 (by norm_num)]
  by_cases h1 : 3 ≤ (wordTokens lines).length <;>
    by_cases h2 : wordTokens lines = [] <;>
    by_cases h3 : 3 ≤ lines.length <;>
    simp_all [List.map_map, Function.comp_def]

/-! ## Theorems: Jaro-Winkler on identical strings -/

theorem usedUpTo_get? {n k m : Nat} (hm : m < n) :
    (usedUpTo n k).get? m = some (decide (m < k)) := by
  unfold usedUpTo
  rw [List.get?_map, List.get?_range hm]
  rfl

theorem usedUpTo_length (n k : Nat) : (usedUpTo n k).length = n := by
  simp [usedUpTo]

theorem usedUpTo_set {n k : Nat} (hk : k < n) :
    (usedUpTo n k).set k true = usedUpTo n (k + 1) := by
  apply List.ext_get?
  intro m
  rw [List.get?_set]
  by_cases hmk : k = m
  · subst hmk
    rw [if_pos rfl, usedUpTo_get? hk, usedUpTo_get? hk]
    simp
  · rw [if_neg hmk]
    by_cases hmn : m < n
    · rw [usedUpTo_get? hmn, usedUpTo_get? hmn]
      simp only [Option.some.injEq, decide_eq_decide]
      omega
    · have h1 : (usedUpTo n k).get? m = none := by
        rw [List.get?_eq_none, usedUpTo_length]
        omega
      have h2 : (usedUpTo n (k + 1)).get? m = none := by
        rw [List.get?_eq_none, usedUpTo_length]
        omega
      rw [h1, h2]

theorem usedUpTo_full (n : Nat) : usedUpTo n n = List.replicate n true := by
  rw [List.eq_replicate]
  refine ⟨usedUpTo_length n n, ?_⟩
  intro bb hb
  unfold usedUpTo at hb
  rw [List.mem_map] at hb
  obtain ⟨j, hj, rfl⟩ := hb
  rw [List.mem_range] at hj
  simp [hj]

/-- The scan finds the first qualifying position. -/
theorem findMatchIdxAux_first (c : Char) (lo hi : Nat) :
    ∀ (t : Nat) (z : List (Char × Bool)) (j : Nat),
      (∀ m, m < t → ∀ e, z.get? m = some e → e.2 = true) →
      z.get? t = some (c, false) →
      lo ≤ j + t → j + t ≤ hi →
      findMatchIdxAux c lo hi j z = some (j + t) := by
  intro t
  induction t with
  | zero =>
    intro z j hpre hget hlo hhi
    cases z with
    | nil => simp at hget
    | cons e rest =>
      have he : e = (c, false) := by simpa using hget
      subst he
      unfold findMatchIdxAux
      rw [if_pos ⟨by omega, by omega, rfl, rfl⟩]
      congr 1
  | succ t ih =>
    intro z j hpre hget hlo hhi
    cases z with
    | nil => simp at hget
    | cons e rest =>
      have he2 : e.2 = true := hpre 0 (by omega) e rfl
      unfold findMatchIdxAux
      rw [if_neg (by simp [he2])]
      have hres := ih rest (j + 1)
        (fun m hm e2 hg => hpre (m + 1) (by omega) e2 (by simpa using hg))
        (by simpa using hget) (by omega) (by omega)
      rw [hres]
      congr 1
      omega

/-- On identical strings, the greedy Jaro loop matches every position with
itself: starting from position `k` with the first `k` flags used, it
matches the whole remainder and ends with all flags used. -/
theorem jaroLoop_self (b : List Char) (range : Nat) :
    ∀ (cs : List Char) (k : Nat), b.drop k = cs →
      jaroLoop range b k cs (usedUpTo b.length k) =
        (cs, usedUpTo b.length b.length) := by
  intro cs
  induction cs with
  | nil =>
    intro k hdrop
    unfold jaroLoop
    have hk : b.length ≤ k := by
      have hlen := congrArg List.length hdrop
      rw [List.length_drop] at hlen
      simp only [List.length_nil] at hlen
      omega
    have hused : usedUpTo b.length k = usedUpTo b.length b.length := by
      unfold usedUpTo
      apply List.map_congr_left
      intro j hj
      rw [List.mem_range] at hj
      simp only [decide_eq_decide]
      omega
    rw [hused]
  | cons c cs' ih =>
    intro k hdrop
    have hk : k < b.length := by
      by_contra hcon
      rw [List.drop_eq_nil_of_le (by omega)] at hdrop
      exact absurd hdrop (by simp)
    have hget : b.get? k = some c := by
      have h0 : (b.drop k).get? 0 = some c := by rw [hdrop]; rfl
      rw [List.get?_drop] at h0
      simpa using h0
    have hfind : findMatchIdx c k range b (usedUpTo b.length k) = some k := by
      unfold findMatchIdx
      have hpre : ∀ m, m < k → ∀ e,
          (b.zip (usedUpTo b.length k)).get? m = some e → e.2 = true := by
        intro m hm e hgz
        obtain ⟨-, hu⟩ := (List.get?_zip_eq_some _ _ _ _).mp hgz
        rw [usedUpTo_get? (by omega)] at hu
        have : e.2 = decide (m < k) := by injection hu with h; exact h.symm
        rw [this]
        simp [hm]
      have hat : (b.zip (usedUpTo b.length k)).get? k = some (c, false) := by
        apply (List.get?_zip_eq_some _ _ _ _).mpr
        refine ⟨hget, ?_⟩
        rw [usedUpTo_get? hk]
        simp
      have := findMatchIdxAux_first c (k - range) (k + range) k
        (b.zip (usedUpTo b.length k)) 0 hpre hat (by omega) (by omega)
      simpa using this
    have hdrop2 : b.drop (k + 1) = cs' := by
      have hdd := List.drop_drop 1 k b
      rw [hdrop] at hdd
      simp only [List.drop_succ_cons, List.drop_zero] at hdd
      exact hdd.symm
    unfold jaroLoop
    rw [hfind]
    dsimp only
    rw [usedUpTo_set hk, ih (k + 1) hdrop2]

theorem zip_replicate_true_proj :
    ∀ l : List Char,
      ((l.zip (List.replicate l.length true)).filter fun p => p.2).map
        (fun p => p.1) = l
  | [] => rfl
  | x :: xs => by
    simp only [List.length_cons, List.replicate_succ, List.zip_cons_cons,
      List.filter_cons]
    simp [zip_replicate_true_proj xs]

theorem zip_self_countP_ne (l : List Char) :
    ((l.zip l).countP fun p => decide (p.1 ≠ p.2)) = 0 := by
  induction l with
  | nil => rfl
  | cons x xs ih =>
    rw [List.zip_cons_cons, List.countP_cons, ih]
    simp

/-- The Jaro similarity of a string with itself is 1. -/
theorem jaroSim_self (s : String) : jaroSim s s = 1 := by
  unfold jaroSim
  by_cases hnil : s.data = []
  · rw [if_pos ⟨hnil, hnil⟩]
  · rw [if_neg (by tauto), if_neg (by tauto)]
    dsimp only
    have hinit : (s.data.map fun _ => false) = usedUpTo s.data.length 0 := by
      apply List.ext_get?
      intro m
      rw [List.get?_map]
      by_cases hm : m < s.data.length
      · rw [usedUpTo_get? hm]
        cases hg : s.data.get? m with
        | none =>
          rw [List.get?_eq_none] at hg
          omega
        | some a => simp
      · have h1 : s.data.get? m = none := by
          rw [List.get?_eq_none]
          omega
        have h2 : (usedUpTo s.data.length 0).get? m = none := by
          rw [List.get?_eq_none, usedUpTo_length]
          omega
        rw [h1, h2]
        rfl
    rw [hinit, jaroLoop_self s.data (max s.data.length s.data.length / 2 - 1)
      s.data 0 rfl]
    dsimp only
    have hm0 : ¬ s.data.length = 0 := fun h => hnil (List.length_eq_zero.mp h)
    rw [if_neg hm0, usedUpTo_full, zip_replicate_true_proj, zip_self_countP_ne]
    have hlen : ((s.data.length : ℚ)) ≠ 0 := by
      simp only [ne_eq, Nat.cast_eq_zero, List.length_eq_zero]
      exact hnil
    have hlen2 : ((s.length : ℚ)) ≠ 0 := hlen
    push_cast
    field_simp
    norm_num

/-- The Jaro-Winkler similarity of a string with itself is 1. -/
theorem jaro_winkler_self (s : String) : jaro_winkler s s = 1 := by
  unfold jaro_winkler
  rw [jaroSim_self]
  dsimp only
  ring

/-! ## Theorems: text self-comparison -/

/-- The Myers diff of a list against itself is all `Equal`. -/
theorem diffChanges_self (l : List String) :
    diffChanges l l = l.map fun x => (ChangeTag.Equal, x) := by
  induction l with
  | nil => simp [diffChanges]
  | cons x xs ih =>
    unfold diffChanges
    rw [if_pos rfl, ih]
    rfl

/-- The statistics loop over an all-`Equal` change stream only counts
common lines. -/
theorem collectStats_equal (maxb : Nat) (l : List String) :
    ∀ (idx : Nat) (st : DiffStats),
      collectStats maxb idx (l.map fun x => (ChangeTag.Equal, x)) st =
        { st with common_lines := st.common_lines + l.length } := by
  induction l with
  | nil => intro idx st; simp [collectStats]
  | cons x xs ih =>
    intro idx st
    rw [List.map_cons]
    show collectStats maxb (idx + 1) (xs.map fun x => (ChangeTag.Equal, x))
      { st with common_lines := st.common_lines + 1 } = _
    rw [ih]
    have h : st.common_lines + 1 + xs.length = st.common_lines + (xs.length + 1) := by
      omega
    dsimp only
    rw [h, List.length_cons]

/-- Annotating an all-`Equal` change stream yields only `Equal` tags. -/
theorem annotateChanges_equal_tags (l : List String) :
    ∀ (o n : Nat) (a : AnnChange),
      a ∈ annotateChanges o n (l.map fun x => (ChangeTag.Equal, x)) →
        a.tag = ChangeTag.Equal := by
  induction l with
  | nil => intro o n a ha; simp [annotateChanges] at ha
  | cons x xs ih =>
    intro o n a ha
    rw [List.map_cons] at ha
    have ha2 : a ∈ (⟨ChangeTag.Equal, x, o, n⟩ : AnnChange) ::
        annotateChanges (o + 1) (n + 1) (xs.map fun x => (ChangeTag.Equal, x)) := ha
    rcases List.mem_cons.mp ha2 with rfl | hmem
    · rfl
    · exact ih _ _ _ hmem

/-- The second component of an `enumFrom` element is an element. -/
theorem snd_mem_of_mem_enumFrom {α : Type} :
    ∀ {l : List α} {k : Nat} {p : Nat × α}, p ∈ List.enumFrom k l → p.2 ∈ l
  | [], _, p, hp => by simp [List.enumFrom] at hp
  | a :: rest, k, p, hp => by
    have hp2 : p ∈ (k, a) :: List.enumFrom (k + 1) rest := hp
    rcases List.mem_cons.mp hp2 with rfl | hmem
    · exact List.mem_cons_self _ _
    · exact List.mem_cons_of_mem _ (snd_mem_of_mem_enumFrom hmem)

/-- A change stream with only `Equal` tags has no changed indices. -/
theorem changedIndices_eq_nil {anns : List AnnChange}
    (h : ∀ a ∈ anns, a.tag = ChangeTag.Equal) : changedIndices anns = [] := by
  unfold changedIndices
  rw [List.map_eq_nil_iff, List.filter_eq_nil_iff]
  intro p hp
  have hmem : p.2 ∈ anns := snd_mem_of_mem_enumFrom hp
  simp [h p.2 hmem]

/-- The unified diff of identical line lists is the bare two-line header,
untruncated. -/
theorem generate_unified_diff_self (f1n f2n : String) (l : List String) (maxb : Nat) :
    generate_unified_diff_from_slices f1n f2n l l maxb =
      ("--- " ++ f1n ++ "\n" ++ "+++ " ++ f2n ++ "\n", false) := by
  unfold generate_unified_diff_from_slices
  dsimp only
  rw [diffChanges_self, changedIndices_eq_nil (annotateChanges_equal_tags l 0 0)]
  simp [groupRuns, renderHunks]

/-- The unified-diff header is never the empty string. -/
theorem unified_header_ne_empty (f1n f2n : String) :
    ("--- " ++ f1n ++ "\n" ++ "+++ " ++ f2n ++ "\n" : String) ≠ "" := by
  intro h
  have hlen := congrArg String.length h
  simp only [String.length_append] at hlen
  have h1 : ("--- " : String).length = 4 := rfl
  have h2 : ("\n" : String).length = 1 := rfl
  have h3 : ("+++ " : String).length = 4 := rfl
  have h4 : ("" : String).length = 0 := rfl
  rw [h1, h2, h3, h4] at hlen
  omega

/-- Self-comparison through the text backend: identical, no side-only
lines, empty position list, untruncated, the stored detailed diff is the
bare unified-diff header, and (under the diff-based score) similarity 1. -/
theorem compare_text_files_self (file1 file2 : FileEntry) (lines : List String)
    (config : CompareConfig) :
    (compare_text_files file1 file2 lines lines config).identical = true ∧
    (compare_text_files file1 file2 lines lines config).only_in_file1 = 0 ∧
    (compare_text_files file1 file2 lines lines config).only_in_file2 = 0 ∧
    (compare_text_files file1 file2 lines lines config).detailed_diff =
      "--- " ++ file1.path ++ "\n" ++ "+++ " ++ file2.path ++ "\n" ∧
    (compare_text_files file1 file2 lines lines config).different_positions = "" ∧
    (compare_text_files file1 file2 lines lines config).diff_truncated = false ∧
    (compare_text_files file1 file2 lines lines config).similarity_score = 1 := by
  unfold compare_text_files
  dsimp only
  rw [diffChanges_self, collectStats_equal, generate_unified_diff_self]
  dsimp only
  rw [if_neg (unified_header_ne_empty file1.path file2.path)]
  refine ⟨by simp, rfl, rfl, rfl, rfl, rfl, ?_⟩
  cases halg : config.similarity_algorithm with
  | CharJaro => exact jaro_winkler_self _
  | Diff =>
    dsimp only
    cases hlen : (match config.ignore_regex with
        | some sub => lines.map sub
        | none => lines).length with
    | zero => simp [hlen]
    | succ k =>
      have hpos : 0 < 0 + (k + 1) + 0 + 0 := by omega
      rw [if_pos hpos]
      push_cast
      have hne : ((k : ℚ) + 1) ≠ 0 := by positivity
      field_simp

/-- Claim C1 counterexample: comparing the one-line file `"x"` with itself
does not produce an empty detailed diff — the stored `detailed_diff` is the
two-line unified-diff header. -/
theorem c1_text_self_empty_diff_counterexample :
    (compare_text_files sampleTextEntry sampleTextEntry ["x"] ["x"]
      sampleConfig).detailed_diff ≠ "" := by
  obtain ⟨-, -, -, h4, -, -, -⟩ :=
    compare_text_files_self sampleTextEntry sampleTextEntry ["x"] sampleConfig
  rw [h4]
  exact unified_header_ne_empty sampleTextEntry.path sampleTextEntry.path

/-- Claim C1 (amended): comparing a text file with itself yields
`identical = true` and similarity score 1, but the detailed diff is not
empty: it contains no diff content, being exactly the two-line
`---`/`+++` unified-diff header. -/
theorem c1_text_self_comparison (file1 file2 : FileEntry) (lines : List String)
    (config : CompareConfig) :
    (compare_text_files file1 file2 lines lines config).identical = true ∧
      (compare_text_files file1 file2 lines lines config).similarity_score = 1 ∧
      (compare_text_files file1 file2 lines lines config).detailed_diff =
        "--- " ++ file1.path ++ "\n" ++ "+++ " ++ file2.path ++ "\n" := by
  obtain ⟨h1, -, -, h4, -, -, h7⟩ :=
    compare_text_files_self file1 file2 lines config
  exact ⟨h1, h7, h4⟩

/-- Witness for C1 at the one-line file `"x"`. -/
theorem c1_text_self_comparison_witness :
    (compare_text_files sampleTextEntry sampleTextEntry ["x"] ["x"]
        sampleConfig).identical = true ∧
      (compare_text_files sampleTextEntry sampleTextEntry ["x"] ["x"]
        sampleConfig).similarity_score = 1 ∧
      (compare_text_files sampleTextEntry sampleTextEntry ["x"] ["x"]
        sampleConfig).detailed_diff = "--- a.txt\n+++ a.txt\n" := by
  obtain ⟨h1, h2, h3⟩ :=
    c1_text_self_comparison sampleTextEntry sampleTextEntry ["x"] sampleConfig
  exact ⟨h1, h2, h3.trans (by decide)⟩

/-! ## Theorems: range encoding round trip -/

/-- Claim C7: for every ascending position list, decoding the
range-encoded string produced by `encode_ranges` recovers the list. -/
theorem c7_encode_ranges_roundtrip (positions : List Nat)
    (hsorted : positions.Sorted (· ≤ ·)) :
    decode_ranges (encode_ranges positions) = positions :=
  decode_encode_ranges positions

/-- Witness for C7 at the ascending list `[1, 2, 3, 5, 7, 8, 9]`. -/
theorem c7_encode_ranges_roundtrip_witness :
    ([1, 2, 3, 5, 7, 8, 9] : List Nat).Sorted (· ≤ ·) ∧
      decode_ranges (encode_ranges [1, 2, 3, 5, 7, 8, 9]) = [1, 2, 3, 5, 7, 8, 9] :=
  ⟨by decide, c7_encode_ranges_roundtrip [1, 2, 3, 5, 7, 8, 9] (by decide)⟩

/-! ## Theorems: dispatch -/

/-- Claim C8: `compare_pair` is a total function into `ComparisonResult`
(totality is intrinsic to the embedding), and whenever the pair is not an
exact-hash match and the backend selected by the resolved mode fails, the
result is the `Error` variant carrying both file paths and the error
message. -/
theorem c8_compare_pair_error_wrapping (config : CompareConfig)
    (pair : CandidatePair) (e : String)
    (textOutcome : Except String TextComparisonResult)
    (structuredOutcome : Except String StructuredComparisonResult)
    (hexact : pair.exact_hash_match = false) :
    ((match config.mode with
        | CompareMode.Auto => auto_detect_mode pair.file1 pair.file2
        | CompareMode.Text => CompareMode.Text
        | CompareMode.Structured => CompareMode.Structured) = CompareMode.Text →
      textOutcome = Except.error e →
      compare_pair config pair textOutcome structuredOutcome =
        ComparisonResult.Error pair.file1.path pair.file2.path e) ∧
    ((match config.mode with
        | CompareMode.Auto => auto_detect_mode pair.file1 pair.file2
        | CompareMode.Text => CompareMode.Text
        | CompareMode.Structured => CompareMode.Structured) = CompareMode.Structured →
      structuredOutcome = Except.error e →
      compare_pair config pair textOutcome structuredOutcome =
        ComparisonResult.Error pair.file1.path pair.file2.path e) := by
  constructor <;> intro hmode hout <;>
    (unfold compare_pair
     rw [hexact]
     simp only [Bool.false_eq_true, if_false]
     rw [hmode, hout])

/-- Witness for C8: a failing text backend on a non-exact pair is wrapped
as an `Error` result with both paths and the message. -/
theorem c8_compare_pair_error_wrapping_witness :
    compare_pair sampleConfig ⟨sampleTextEntry, sampleTextEntry, 0, false⟩
        (Except.error "boom") (Except.error "other") =
      ComparisonResult.Error "a.txt" "a.txt" "boom" :=
  (c8_compare_pair_error_wrapping sampleConfig
    ⟨sampleTextEntry, sampleTextEntry, 0, false⟩ "boom"
    (Except.error "boom") (Except.error "other") rfl).1 rfl rfl

/-! ## Theorems: structured comparison -/

/-- The merge-join classifies each input record exactly once: matched
records count into `common`, the rest into their side-only counter. -/
theorem mergeJoinLoop_counts (cc kc hh1 hh2 : List String) (tol : ℚ)
    (l1 l2 : List (String × List String)) :
    (mergeJoinLoop cc kc hh1 hh2 tol l1 l2).common
        + (mergeJoinLoop cc kc hh1 hh2 tol l1 l2).only1 = l1.length ∧
      (mergeJoinLoop cc kc hh1 hh2 tol l1 l2).common
        + (mergeJoinLoop cc kc hh1 hh2 tol l1 l2).only2 = l2.length := by
  induction l1, l2 using mergeJoinLoop.induct cc kc hh1 hh2 tol with
  | case1 l2 => simp [mergeJoinLoop]
  | case2 p1 t1 => simp [mergeJoinLoop]
  | case3 p1 t1 p2 t2 heq ih =>
    obtain ⟨ih1, ih2⟩ := ih
    simp only [mergeJoinLoop, heq, List.length_cons]
    omega
  | case4 p1 t1 p2 t2 heq ih =>
    obtain ⟨ih1, ih2⟩ := ih
    simp only [List.length_cons] at ih2
    simp only [mergeJoinLoop, heq, List.length_cons]
    omega
  | case5 p1 t1 p2 t2 heq ih =>
    obtain ⟨ih1, ih2⟩ := ih
    simp only [List.length_cons] at ih1
    simp only [mergeJoinLoop, heq, List.length_cons]
    omega

/-- Claim C10: every structured comparison result conserves record counts:
`common_records + only_in_file1 = file1_row_count` and
`common_records + only_in_file2 = file2_row_count`; the merge-join
classifies each input record exactly once as common or side-only. -/
theorem c10_record_conservation (file1 file2 : FileEntry)
    (headers1 : List String) (rows1 : List (List String))
    (headers2 : List String) (rows2 : List (List String))
    (config : CompareConfig) (r : StructuredComparisonResult)
    (hr : r = compare_structured_files file1 file2 headers1 rows1 headers2 rows2 config) :
    r.common_records + r.only_in_file1 = r.file1_row_count ∧
      r.common_records + r.only_in_file2 = r.file2_row_count := by
  subst hr
  unfold compare_structured_files
  exact mergeJoinLoop_counts _ _ _ _ _ _ _

/-- Claim C2: the structured similarity score is the record Jaccard
`common / (|L| + |R| - common)`, equal to 1 when both sides are empty, and
`identical` holds iff both side-only counts and the total field-mismatch
count are zero. -/
theorem c2_structured_similarity_identical (file1 file2 : FileEntry)
    (headers1 : List String) (rows1 : List (List String))
    (headers2 : List String) (rows2 : List (List String))
    (config : CompareConfig) (r : StructuredComparisonResult)
    (hr : r = compare_structured_files file1 file2 headers1 rows1 headers2 rows2 config) :
    (¬ (r.file1_row_count = 0 ∧ r.file2_row_count = 0) →
      r.similarity_score = (r.common_records : ℚ)
        / ((r.file1_row_count : ℚ) + (r.file2_row_count : ℚ) - (r.common_records : ℚ))) ∧
    (r.file1_row_count = 0 ∧ r.file2_row_count = 0 → r.similarity_score = 1) ∧
    (r.identical = true ↔
      r.only_in_file1 = 0 ∧ r.only_in_file2 = 0 ∧ r.total_field_mismatches = 0) := by
  subst hr
  unfold compare_structured_files
  dsimp only
  set s1 := sortedRecords headers1 rows1 config.key_columns with hs1
  set s2 := sortedRecords headers2 rows2 config.key_columns with hs2
  set j := mergeJoinLoop (commonColumns headers1 headers2 config.ignore_columns)
    config.key_columns headers1 headers2 config.numeric_tolerance s1 s2 with hj
  obtain ⟨hc1, hc2⟩ :=
    mergeJoinLoop_counts (commonColumns headers1 headers2 config.ignore_columns)
      config.key_columns headers1 headers2 config.numeric_tolerance s1 s2
  rw [← hj] at hc1 hc2
  refine ⟨?_, ?_, ?_⟩
  · intro hne
    have hlt : 0 < s1.length + s2.length - j.common := by omega
    rw [if_pos hlt]
    have hle : j.common ≤ s1.length + s2.length := by omega
    rw [Nat.cast_sub hle]
    push_cast
    ring_nf
  · rintro ⟨h1, h2⟩
    have hnlt : ¬ 0 < s1.length + s2.length - j.common := by omega
    rw [if_neg hnlt]
  · simp only [decide_eq_true_eq]

/-- Witness for C2: on an empty-vs-empty structured comparison the
similarity score is 1. -/
theorem c2_structured_similarity_identical_witness :
    (compare_structured_files sampleCsvEntry1 sampleCsvEntry2
        ["id", "v"] [] ["id", "v"] [] sampleConfig).similarity_score = 1 := by
  apply (c2_structured_similarity_identical sampleCsvEntry1 sampleCsvEntry2
    ["id", "v"] [] ["id", "v"] [] sampleConfig _ rfl).2.1
  refine ⟨?_, ?_⟩ <;>
    simp [compare_structured_files, sortedRecords, List.mergeSort_nil]

/-- Witness for C10 at a concrete two-row input. -/
theorem c10_record_conservation_witness :
    (compare_structured_files sampleCsvEntry1 sampleCsvEntry2
          ["id", "v"] [["1", "x"], ["2", "y"]]
          ["id", "v"] [["2", "z"], ["3", "w"]] sampleConfig).common_records
        + (compare_structured_files sampleCsvEntry1 sampleCsvEntry2
          ["id", "v"] [["1", "x"], ["2", "y"]]
          ["id", "v"] [["2", "z"], ["3", "w"]] sampleConfig).only_in_file1
        = (compare_structured_files sampleCsvEntry1 sampleCsvEntry2
          ["id", "v"] [["1", "x"], ["2", "y"]]
          ["id", "v"] [["2", "z"], ["3", "w"]] sampleConfig).file1_row_count :=
  (c10_record_conservation _ _ _ _ _ _ _ _ rfl).1

end CompareIt
